import Mathlib

/-!
Verification of the WKB/EWKB/GeoPackage geometry reader
(`src/geozero/src/wkb/wkb_reader.rs`).

The byte source is a `List Nat` (each element a byte, reduced mod 256 at
read time).  IEEE-754 doubles are never interpreted arithmetically by the
reader — it only moves their bits from the stream to the processor — so an
`f64` is modelled by its 64-bit pattern as a `Nat`, assembled in the
governing byte order.  The `GeomProcessor` visitor is modelled by a trace
of its calls (`PCall`) plus an oracle `Oracle : Nat → Bool` answering the
successive `multi_dim()` queries.  Fallible reads run in `Except DErr`;
walking runs in the state monad `M` which always returns the state (the
calls already issued survive an error, exactly as in the source).
-/

/-- Error kind: `ioError` models `GeozeroError::IoError` (premature end of
the byte source), `formatError` models `GeozeroError::GeometryFormat`.
`fuelError` is an artefact of the embedding: the source recursion on
`GeometryCollection` is unbounded, the embedding bounds it by a fuel
parameter that entry points instantiate large enough never to run out for
their input. -/
inductive DErr : Type
  | ioError
  | formatError
  | fuelError
  deriving DecidableEq

instance {ε α : Type} [DecidableEq ε] [DecidableEq α] :
    DecidableEq (Except ε α) := fun x y =>
  match x, y with
  | .ok a, .ok b =>
    if h : a = b then isTrue (by rw [h]) else
      isFalse (by intro hc; cases hc; exact h rfl)
  | .ok _, .error _ => isFalse (by intro hc; cases hc)
  | .error _, .ok _ => isFalse (by intro hc; cases hc)
  | .error e, .error f =>
    if h : e = f then isTrue (by rw [h]) else
      isFalse (by intro hc; cases hc; exact h rfl)

/-- Byte order of multi-byte reads (`scroll::BE` / `scroll::LE`). -/
inductive Endian : Type
  | be
  | le
  deriving DecidableEq

/-- Modelled from the spec: `WKBGeometryType` and `WKBGeometryType::from_u32`
live in `src/wkb/mod.rs`, which is not under `src/`.  The spec (§3) fixes the
closed kind enumeration (15 kinds plus an `Unknown` sentinel); the numeric
codes are the OGC WKB codes exercised by the repository's tests
(Point=1, LineString=2, Polygon=3, MultiPoint=4, MultiLineString=5,
MultiPolygon=6, GeometryCollection=7, CircularString=8, CompoundCurve=9,
CurvePolygon=10, MultiCurve=11, MultiSurface=12, PolyhedralSurface=15,
Tin=16, Triangle=17); any other code maps to `Unknown`. -/
inductive WKBGeometryType : Type
  | Point
  | LineString
  | Polygon
  | MultiPoint
  | MultiLineString
  | MultiPolygon
  | GeometryCollection
  | CircularString
  | CompoundCurve
  | CurvePolygon
  | MultiCurve
  | MultiSurface
  | PolyhedralSurface
  | Tin
  | Triangle
  | Unknown
  deriving DecidableEq

/-- Modelled from the spec: numeric code to kind, see `WKBGeometryType`. -/
def WKBGeometryType.from_u32 (t : Nat) : WKBGeometryType :=
  match t with
  | 1 => .Point
  | 2 => .LineString
  | 3 => .Polygon
  | 4 => .MultiPoint
  | 5 => .MultiLineString
  | 6 => .MultiPolygon
  | 7 => .GeometryCollection
  | 8 => .CircularString
  | 9 => .CompoundCurve
  | 10 => .CurvePolygon
  | 11 => .MultiCurve
  | 12 => .MultiSurface
  | 15 => .PolyhedralSurface
  | 16 => .Tin
  | 17 => .Triangle
  | _ => .Unknown

/-- The three wire dialects (`WkbDialect`). -/
inductive WkbDialect : Type
  | Wkb
  | Ewkb
  | Geopackage
  deriving DecidableEq

/-- Decoded header record (`WkbInfo`).  `envelope` holds raw 64-bit float
patterns. -/
structure WkbInfo : Type where
  endian : Endian
  base_type : WKBGeometryType
  has_z : Bool
  has_m : Bool
  srid : Option Int
  envelope : List Nat
  deriving DecidableEq

theorem WkbInfo.endian_mk (e t z m s v) :
    (WkbInfo.mk e t z m s v).endian = e := rfl

theorem WkbInfo.base_type_mk (e t z m s v) :
    (WkbInfo.mk e t z m s v).base_type = t := rfl

theorem WkbInfo.has_z_mk (e t z m s v) :
    (WkbInfo.mk e t z m s v).has_z = z := rfl

theorem WkbInfo.has_m_mk (e t z m s v) :
    (WkbInfo.mk e t z m s v).has_m = m := rfl

theorem WkbInfo.srid_mk (e t z m s v) :
    (WkbInfo.mk e t z m s v).srid = s := rfl

theorem WkbInfo.envelope_mk (e t z m s v) :
    (WkbInfo.mk e t z m s v).envelope = v := rfl

/-! ## Byte-level reads (the `scroll::IOread` calls) -/

/-- Read one byte; failing with an I/O error on stream end. -/
def readU8 : List Nat → Except DErr (Nat × List Nat)
  | [] => .error .ioError
  | b :: rest => .ok (b % 256, rest)

/-- Assemble big-endian: most significant byte first. -/
def beNat (l : List Nat) : Nat := l.foldl (fun a b => a * 256 + b % 256) 0

/-- Assemble a 4-byte unsigned integer in byte order `e`. -/
def asmU32 (e : Endian) (b0 b1 b2 b3 : Nat) : Nat :=
  match e with
  | .be => beNat [b0, b1, b2, b3]
  | .le => beNat [b3, b2, b1, b0]

/-- Read a `u32` in byte order `e`. -/
def readU32 (e : Endian) : List Nat → Except DErr (Nat × List Nat)
  | b0 :: b1 :: b2 :: b3 :: rest => .ok (asmU32 e b0 b1 b2 b3, rest)
  | _ => .error .ioError

/-- Two's-complement reinterpretation of a 32-bit pattern. -/
def u32AsI32 (t : Nat) : Int :=
  if t < 2 ^ 31 then (t : Int) else (t : Int) - 2 ^ 32

/-- Read an `i32` in byte order `e`. -/
def readI32 (e : Endian) (l : List Nat) : Except DErr (Int × List Nat) :=
  match readU32 e l with
  | .ok (t, rest) => .ok (u32AsI32 t, rest)
  | .error er => .error er

/-- Assemble an 8-byte float pattern in byte order `e`. -/
def asmF64 (e : Endian) (b0 b1 b2 b3 b4 b5 b6 b7 : Nat) : Nat :=
  match e with
  | .be => beNat [b0, b1, b2, b3, b4, b5, b6, b7]
  | .le => beNat [b7, b6, b5, b4, b3, b2, b1, b0]

/-- Read an `f64` (as its 64-bit pattern) in byte order `e`. -/
def readF64 (e : Endian) : List Nat → Except DErr (Nat × List Nat)
  | b0 :: b1 :: b2 :: b3 :: b4 :: b5 :: b6 :: b7 :: rest =>
      .ok (asmF64 e b0 b1 b2 b3 b4 b5 b6 b7, rest)
  | _ => .error .ioError

/-- Read `n` consecutive `f64` patterns (the GeoPackage envelope collect). -/
def readF64List (e : Endian) : Nat → List Nat → Except DErr (List Nat × List Nat)
  | 0, l => .ok ([], l)
  | n + 1, l =>
    match readF64 e l with
    | .ok (v, rest) =>
      match readF64List e n rest with
      | .ok (vs, rest2) => .ok (v :: vs, rest2)
      | .error er => .error er
    | .error er => .error er

/-! ## Header decoders -/

/-- A header decoder: `fn(&mut R) -> Result<WkbInfo>`. -/
def HdrFn : Type := List Nat → Except DErr (WkbInfo × List Nat)

/-- OGC WKB header (`read_wkb_header`).  Byte-order marker 0 (`Xdr`) is
big-endian, anything else little-endian. -/
def read_wkb_header : HdrFn := fun raw => do
  let (byte_order, raw) ← readU8 raw
  let endian := if byte_order = 0 then Endian.be else Endian.le
  let (type_id, raw) ← readU32 endian raw
  let base_type := WKBGeometryType.from_u32 (type_id % 1000)
  let type_id_dim := type_id / 1000
  let has_z := type_id_dim == 1 || type_id_dim == 3
  let has_m := type_id_dim == 2 || type_id_dim == 3
  pure (⟨endian, base_type, has_z, has_m, none, []⟩, raw)

/-- PostGIS EWKB header (`read_ewkb_header`): flags bit-packed in the type
code, optional SRID. -/
def read_ewkb_header : HdrFn := fun raw => do
  let (byte_order, raw) ← readU8 raw
  let endian := if byte_order = 0 then Endian.be else Endian.le
  let (type_id, raw) ← readU32 endian raw
  let base_type := WKBGeometryType.from_u32 (type_id % 256)
  let has_z := type_id / 2 ^ 31 % 2 == 1
  let has_m := type_id / 2 ^ 30 % 2 == 1
  if type_id / 2 ^ 29 % 2 == 1 then do
    let (srid, raw) ← readI32 endian raw
    pure (⟨endian, base_type, has_z, has_m, some srid, []⟩, raw)
  else
    pure (⟨endian, base_type, has_z, has_m, none, []⟩, raw)

/-- GeoPackage header (`read_gpkg_header`): magic "GP" (71, 80), version,
flags, SRID, optional envelope, then the embedded plain WKB header. -/
def read_gpkg_header : HdrFn := fun raw => do
  let (m0, raw) ← readU8 raw
  let (m1, raw) ← readU8 raw
  if m0 = 71 ∧ m1 = 80 then do
    let (_version, raw) ← readU8 raw
    let (flags, raw) ← readU8 raw
    let env_len ← (match flags / 2 % 8 with
      | 0 => Except.ok 0
      | 1 => Except.ok 4
      | 2 => Except.ok 6
      | 3 => Except.ok 6
      | 4 => Except.ok 8
      | _ => Except.error DErr.formatError)
    let endian := if flags % 2 = 0 then Endian.be else Endian.le
    let (srid, raw) ← readI32 endian raw
    let (envelope, raw) ← readF64List endian env_len raw
    let (ogc_info, raw) ← read_wkb_header raw
    pure (⟨endian, ogc_info.base_type, ogc_info.has_z, ogc_info.has_m,
           some srid, envelope⟩, raw)
  else
    .error .formatError

/-! ## The processor model and the walker monad -/

/-- One `GeomProcessor` call, as observed by the walker.  `coordinate`
carries `(x, y, z, m, t, tm, idx)` with the walker always passing `none`
for `t`/`tm`; coordinates are 64-bit float patterns. -/
inductive PCall : Type
  | multiDim (answer : Bool)
  | pointBegin (idx : Nat)
  | pointEnd (idx : Nat)
  | multipointBegin (n idx : Nat)
  | multipointEnd (idx : Nat)
  | linestringBegin (tagged : Bool) (n idx : Nat)
  | linestringEnd (tagged : Bool) (idx : Nat)
  | circularstringBegin (n idx : Nat)
  | circularstringEnd (idx : Nat)
  | compoundcurveBegin (n idx : Nat)
  | compoundcurveEnd (idx : Nat)
  | multilinestringBegin (n idx : Nat)
  | multilinestringEnd (idx : Nat)
  | multicurveBegin (n idx : Nat)
  | multicurveEnd (idx : Nat)
  | polygonBegin (tagged : Bool) (n idx : Nat)
  | polygonEnd (tagged : Bool) (idx : Nat)
  | triangleBegin (tagged : Bool) (n idx : Nat)
  | triangleEnd (tagged : Bool) (idx : Nat)
  | curvepolygonBegin (n idx : Nat)
  | curvepolygonEnd (idx : Nat)
  | multipolygonBegin (n idx : Nat)
  | multipolygonEnd (idx : Nat)
  | polyhedralsurfaceBegin (n idx : Nat)
  | polyhedralsurfaceEnd (idx : Nat)
  | tinBegin (n idx : Nat)
  | tinEnd (idx : Nat)
  | multisurfaceBegin (n idx : Nat)
  | multisurfaceEnd (idx : Nat)
  | geometrycollectionBegin (n idx : Nat)
  | geometrycollectionEnd (idx : Nat)
  | coordinate (x y : Nat) (z m t tm : Option Nat) (idx : Nat)
  | xy (x y : Nat) (idx : Nat)
  deriving DecidableEq

/-- The processor's successive answers to `multi_dim()` queries: answer
number `n` is `p n`. -/
def Oracle : Type := Nat → Bool

/-- Walker state: remaining bytes, number of `multi_dim()` queries made so
far, and the trace of processor calls already issued. -/
structure St : Type where
  bytes : List Nat
  nq : Nat
  trace : List PCall
  deriving DecidableEq

/-- The walker monad: state passing that reports errors while keeping the
state (processor calls already made are not unmade by a failure). -/
def M (α : Type) : Type := St → Except DErr α × St

instance : Monad M where
  pure a := fun s => (.ok a, s)
  bind x f := fun s =>
    match x s with
    | (.ok a, s') => f a s'
    | (.error e, s') => (.error e, s')

theorem M.pure_apply {α : Type} (a : α) (s : St) :
    (pure a : M α) s = (.ok a, s) := rfl

theorem M.bind_apply {α β : Type} (x : M α) (f : α → M β) (s : St) :
    (x >>= f) s =
      match x s with
      | (.ok a, s') => f a s'
      | (.error e, s') => (.error e, s') := rfl

theorem M.bind_congr {α β : Type} (x : M α) {f g : α → M β}
    (h : ∀ a, f a = g a) : x >>= f = x >>= g := by
  have : f = g := funext h
  rw [this]

/-- Abort with error `e`, keeping the state. -/
def throwErr {α : Type} (e : DErr) : M α := fun s => (.error e, s)

/-- Issue one processor call. -/
def emit (c : PCall) : M Unit := fun s =>
  (.ok (), { s with trace := s.trace ++ [c] })

/-- Query `multi_dim()`: the oracle's next answer, recorded in the trace. -/
def askMultiDim (p : Oracle) : M Bool := fun s =>
  (.ok (p s.nq), { s with nq := s.nq + 1, trace := s.trace ++ [.multiDim (p s.nq)] })

/-- Run a header decoder against the byte stream. -/
def liftHdr (rh : HdrFn) : M WkbInfo := fun s =>
  match rh s.bytes with
  | .ok (info, b') => (.ok info, { s with bytes := b' })
  | .error e => (.error e, s)

/-- Read a `u32` from the stream in the walker. -/
def readU32M (e : Endian) : M Nat := fun s =>
  match readU32 e s.bytes with
  | .ok (v, b') => (.ok v, { s with bytes := b' })
  | .error er => (.error er, s)

/-- Read an `f64` pattern from the stream in the walker. -/
def readF64M (e : Endian) : M Nat := fun s =>
  match readF64 e s.bytes with
  | .ok (v, b') => (.ok v, { s with bytes := b' })
  | .error er => (.error er, s)

/-! ## The recursive geometry walker -/

/-- `process_coord`: x and y, then z and m exactly when the governing
header's flags are set; emission switches on `multi_dim`. -/
def process_coord (info : WkbInfo) (multi_dim : Bool) (idx : Nat) : M Unit := do
  let x ← readF64M info.endian
  let y ← readF64M info.endian
  let z ← if info.has_z then do
      let v ← readF64M info.endian
      pure (some v)
    else
      pure none
  let m ← if info.has_m then do
      let v ← readF64M info.endian
      pure (some v)
    else
      pure none
  if multi_dim then
    emit (.coordinate x y z m none none idx)
  else
    emit (.xy x y idx)

/-- The `for i in 0..length` coordinate loop shared by the linestring-shaped
bodies. -/
def coordLoop (info : WkbInfo) (multi : Bool) : Nat → Nat → M Unit
  | 0, _ => pure ()
  | n + 1, i => do
    process_coord info multi i
    coordLoop info multi n (i + 1)

/-- `process_linestring`. -/
def process_linestring (info : WkbInfo) (tagged : Bool) (idx : Nat)
    (p : Oracle) : M Unit := do
  let length ← readU32M info.endian
  emit (.linestringBegin tagged length idx)
  let multi ← askMultiDim p
  coordLoop info multi length 0
  emit (.linestringEnd tagged idx)

/-- `process_circularstring`. -/
def process_circularstring (info : WkbInfo) (idx : Nat) (p : Oracle) :
    M Unit := do
  let length ← readU32M info.endian
  emit (.circularstringBegin length idx)
  let multi ← askMultiDim p
  coordLoop info multi length 0
  emit (.circularstringEnd idx)

/-- The untagged-ring loop of `process_polygon` / `process_triangle`. -/
def ringLoop (info : WkbInfo) (p : Oracle) : Nat → Nat → M Unit
  | 0, _ => pure ()
  | n + 1, i => do
    process_linestring info false i p
    ringLoop info p n (i + 1)

/-- `process_polygon`. -/
def process_polygon (info : WkbInfo) (tagged : Bool) (idx : Nat)
    (p : Oracle) : M Unit := do
  let ring_count ← readU32M info.endian
  emit (.polygonBegin tagged ring_count idx)
  ringLoop info p ring_count 0
  emit (.polygonEnd tagged idx)

/-- `process_triangle`. -/
def process_triangle (info : WkbInfo) (tagged : Bool) (idx : Nat)
    (p : Oracle) : M Unit := do
  let ring_count ← readU32M info.endian
  emit (.triangleBegin tagged ring_count idx)
  ringLoop info p ring_count 0
  emit (.triangleEnd tagged idx)

/-- The tagged-segment loop of `process_compoundcurve`: each segment must
decode to `CircularString` or `LineString`, anything else is a format
error. -/
def ccLoop (rh : HdrFn) (p : Oracle) : Nat → Nat → M Unit
  | 0, _ => pure ()
  | n + 1, i => do
    let info ← liftHdr rh
    (match info.base_type with
     | .CircularString => process_circularstring info i p
     | .LineString => process_linestring info false i p
     | _ => throwErr .formatError)
    ccLoop rh p n (i + 1)

/-- `process_compoundcurve`. -/
def process_compoundcurve (info : WkbInfo) (rh : HdrFn) (idx : Nat)
    (p : Oracle) : M Unit := do
  let n_strings ← readU32M info.endian
  emit (.compoundcurveBegin n_strings idx)
  ccLoop rh p n_strings 0
  emit (.compoundcurveEnd idx)

/-- `process_curve`: a tagged curve must decode to `CircularString`,
`LineString` or `CompoundCurve`. -/
def process_curve (rh : HdrFn) (idx : Nat) (p : Oracle) : M Unit := do
  let info ← liftHdr rh
  match info.base_type with
  | .CircularString => process_circularstring info idx p
  | .LineString => process_linestring info false idx p
  | .CompoundCurve => process_compoundcurve info rh idx p
  | _ => throwErr .formatError

/-- The tagged-ring loop of `process_curvepolygon`. -/
def cpLoop (rh : HdrFn) (p : Oracle) : Nat → Nat → M Unit
  | 0, _ => pure ()
  | n + 1, i => do
    process_curve rh i p
    cpLoop rh p n (i + 1)

/-- `process_curvepolygon`. -/
def process_curvepolygon (info : WkbInfo) (rh : HdrFn) (idx : Nat)
    (p : Oracle) : M Unit := do
  let ring_count ← readU32M info.endian
  emit (.curvepolygonBegin ring_count idx)
  cpLoop rh p ring_count 0
  emit (.curvepolygonEnd idx)

/-- The member loop of the `MultiPoint` branch: a fresh tagged header per
member, then one coordinate governed by that member's header. -/
def mpLoop (rh : HdrFn) (multi : Bool) : Nat → Nat → M Unit
  | 0, _ => pure ()
  | n + 1, i => do
    let info ← liftHdr rh
    process_coord info multi i
    mpLoop rh multi n (i + 1)

/-- The member loop of the `MultiLineString` branch. -/
def mlsLoop (rh : HdrFn) (p : Oracle) : Nat → Nat → M Unit
  | 0, _ => pure ()
  | n + 1, i => do
    let info ← liftHdr rh
    process_linestring info false i p
    mlsLoop rh p n (i + 1)

/-- The member loop of the `MultiCurve` branch. -/
def mcLoop (rh : HdrFn) (p : Oracle) : Nat → Nat → M Unit
  | 0, _ => pure ()
  | n + 1, i => do
    process_curve rh i p
    mcLoop rh p n (i + 1)

/-- The member loop of the `MultiPolygon` and `PolyhedralSurface`
branches. -/
def polyLoop (rh : HdrFn) (p : Oracle) : Nat → Nat → M Unit
  | 0, _ => pure ()
  | n + 1, i => do
    let info ← liftHdr rh
    process_polygon info false i p
    polyLoop rh p n (i + 1)

/-- The member loop of the `Tin` branch. -/
def tinLoop (rh : HdrFn) (p : Oracle) : Nat → Nat → M Unit
  | 0, _ => pure ()
  | n + 1, i => do
    let info ← liftHdr rh
    process_triangle info false i p
    tinLoop rh p n (i + 1)

/-- The member loop of the `MultiSurface` branch: each member must decode
to `CurvePolygon` or `Polygon`, anything else is a format error. -/
def msLoop (rh : HdrFn) (p : Oracle) : Nat → Nat → M Unit
  | 0, _ => pure ()
  | n + 1, i => do
    let info ← liftHdr rh
    (match info.base_type with
     | .CurvePolygon => process_curvepolygon info rh i p
     | .Polygon => process_polygon info false i p
     | _ => throwErr .formatError)
    msLoop rh p n (i + 1)

/-- The member loop of the `GeometryCollection` branch; `step` is the
recursive re-entry into the dispatcher. -/
def gcLoop (rh : HdrFn) (step : WkbInfo → Nat → M Unit) : Nat → Nat → M Unit
  | 0, _ => pure ()
  | n + 1, i => do
    let info ← liftHdr rh
    step info i
    gcLoop rh step n (i + 1)

/-- `process_wkb_geom_n`: exhaustive dispatch on the header's base kind.
The source recursion (`GeometryCollection` members re-enter this function)
is unbounded; `fuel` bounds it in the embedding and entry points pass
`bytes.length + 1`, which the nesting depth (at least 5 header bytes per
level) can never reach. -/
def process_wkb_geom_n : Nat → WkbInfo → HdrFn → Nat → Oracle → M Unit
  | 0, _, _, _, _ => throwErr .fuelError
  | fuel + 1, info, read_header, idx, p =>
    match info.base_type with
    | .Point => do
        emit (.pointBegin idx)
        let multi ← askMultiDim p
        process_coord info multi 0
        emit (.pointEnd idx)
    | .MultiPoint => do
        let n_pts ← readU32M info.endian
        emit (.multipointBegin n_pts idx)
        let multi ← askMultiDim p
        mpLoop read_header multi n_pts 0
        emit (.multipointEnd idx)
    | .LineString => process_linestring info true idx p
    | .CircularString => process_circularstring info idx p
    | .CompoundCurve => process_compoundcurve info read_header idx p
    | .MultiLineString => do
        let n_lines ← readU32M info.endian
        emit (.multilinestringBegin n_lines idx)
        mlsLoop read_header p n_lines 0
        emit (.multilinestringEnd idx)
    | .MultiCurve => do
        let n_curves ← readU32M info.endian
        emit (.multicurveBegin n_curves idx)
        mcLoop read_header p n_curves 0
        emit (.multicurveEnd idx)
    | .Polygon => process_polygon info true idx p
    | .Triangle => process_triangle info true idx p
    | .CurvePolygon => process_curvepolygon info read_header idx p
    | .MultiPolygon => do
        let n_polys ← readU32M info.endian
        emit (.multipolygonBegin n_polys idx)
        polyLoop read_header p n_polys 0
        emit (.multipolygonEnd idx)
    | .PolyhedralSurface => do
        let n_polys ← readU32M info.endian
        emit (.polyhedralsurfaceBegin n_polys idx)
        polyLoop read_header p n_polys 0
        emit (.polyhedralsurfaceEnd idx)
    | .Tin => do
        let n_triangles ← readU32M info.endian
        emit (.tinBegin n_triangles idx)
        tinLoop read_header p n_triangles 0
        emit (.tinEnd idx)
    | .MultiSurface => do
        let n_polys ← readU32M info.endian
        emit (.multisurfaceBegin n_polys idx)
        msLoop read_header p n_polys 0
        emit (.multisurfaceEnd idx)
    | .GeometryCollection => do
        let n_geoms ← readU32M info.endian
        emit (.geometrycollectionBegin n_geoms idx)
        gcLoop read_header
          (fun info2 i => process_wkb_geom_n fuel info2 read_header i p)
          n_geoms 0
        emit (.geometrycollectionEnd idx)
    | .Unknown => throwErr .formatError

/-! ## Entry points -/

/-- The pristine state a top-level decode starts from. -/
def initSt (b : List Nat) : St := ⟨b, 0, []⟩

/-- `process_wkb_geom`: outer and nested headers both plain. -/
def process_wkb_geom (b : List Nat) (p : Oracle) : Except DErr Unit × St :=
  (do
    let info ← liftHdr read_wkb_header
    process_wkb_geom_n (b.length + 1) info read_wkb_header 0 p) (initSt b)

/-- `process_ewkb_geom`: outer and nested headers both extended. -/
def process_ewkb_geom (b : List Nat) (p : Oracle) : Except DErr Unit × St :=
  (do
    let info ← liftHdr read_ewkb_header
    process_wkb_geom_n (b.length + 1) info read_ewkb_header 0 p) (initSt b)

/-- `process_gpkg_geom`: GeoPackage outer header, plain nested headers. -/
def process_gpkg_geom (b : List Nat) (p : Oracle) : Except DErr Unit × St :=
  (do
    let info ← liftHdr read_gpkg_header
    process_wkb_geom_n (b.length + 1) info read_wkb_header 0 p) (initSt b)

/-- `process_wkb_type_geom`: dialect dispatch. -/
def process_wkb_type_geom (dialect : WkbDialect) (b : List Nat) (p : Oracle) :
    Except DErr Unit × St :=
  match dialect with
  | .Wkb => process_wkb_geom b p
  | .Ewkb => process_ewkb_geom b p
  | .Geopackage => process_gpkg_geom b p

/-! ## Generic helpers about `Except` and the byte readers -/

theorem exceptBind_ok {ε α β : Type} (a : α) (f : α → Except ε β) :
    (Except.ok a >>= f) = f a := rfl

theorem exceptBind_error {ε α β : Type} (e : ε) (f : α → Except ε β) :
    ((Except.error e : Except ε α) >>= f) = .error e := rfl

theorem exceptPure {ε α : Type} (a : α) :
    (pure a : Except ε α) = .ok a := rfl

theorem exceptBind_ok_inv {ε α β : Type} {x : Except ε α}
    {f : α → Except ε β} {r : β} (h : x >>= f = .ok r) :
    ∃ a, x = .ok a ∧ f a = .ok r := by
  cases x with
  | ok a => exact ⟨a, rfl, h⟩
  | error e => exact Except.noConfusion h

theorem readU8_ok_inv {l : List Nat} {v : Nat} {rest : List Nat}
    (h : readU8 l = .ok (v, rest)) :
    ∃ hd, l = hd :: rest ∧ v = hd % 256 := by
  cases l with
  | nil => exact Except.noConfusion h
  | cons hd tl =>
    injection h with h'
    injection h' with h1 h2
    exact ⟨hd, by rw [h2], h1.symm⟩

theorem readU32_ok_inv {e : Endian} {l : List Nat} {v : Nat} {rest : List Nat}
    (h : readU32 e l = .ok (v, rest)) :
    ∃ b0 b1 b2 b3, l = b0 :: b1 :: b2 :: b3 :: rest ∧ v = asmU32 e b0 b1 b2 b3 := by
  match l with
  | [] | [_] | [_, _] | [_, _, _] => exact Except.noConfusion h
  | b0 :: b1 :: b2 :: b3 :: tl =>
    injection h with h'
    injection h' with h1 h2
    exact ⟨b0, b1, b2, b3, by rw [h2], h1.symm⟩

theorem readF64List_length {e : Endian} :
    ∀ {n : Nat} {l vs rest : List Nat},
      readF64List e n l = .ok (vs, rest) → vs.length = n := by
  intro n
  induction n with
  | zero =>
    intro l vs rest h
    injection h with h'
    injection h' with h1 _
    rw [← h1]
    rfl
  | succ k ih =>
    intro l vs rest h
    unfold readF64List at h
    cases h1 : readF64 e l with
    | error er =>
      simp only [h1] at h
      exact Except.noConfusion h
    | ok pr =>
      obtain ⟨v, r1⟩ := pr
      simp only [h1] at h
      cases h2 : readF64List e k r1 with
      | error er =>
        simp only [h2] at h
        exact Except.noConfusion h
      | ok pr2 =>
        obtain ⟨vs1, r2⟩ := pr2
        simp only [h2] at h
        injection h with h'
        injection h' with h3 _
        rw [← h3]
        simp [ih h2]

/-! ## C1 — which header decoder is used for nested reads -/

/-- Modelled from the spec: §3 of the spec says "nested reads always use
the *plain* decoder once inside an extended or GeoPackage-wrapped stream".
This decode runs a given outer header decoder but forces `read_wkb_header`
for every re-entrant nested header read, which is what that sentence
prescribes for the EWKB and GeoPackage entry points. -/
def process_geom_plain_nested (outer : HdrFn) (b : List Nat) (p : Oracle) :
    Except DErr Unit × St :=
  (do
    let info ← liftHdr outer
    process_wkb_geom_n (b.length + 1) info read_wkb_header 0 p) (initSt b)

/-- The header decoder each dialect uses for the outermost read. -/
def outer_header_of : WkbDialect → HdrFn
  | .Wkb => read_wkb_header
  | .Ewkb => read_ewkb_header
  | .Geopackage => read_gpkg_header

/-- The header decoder each dialect passes down for nested tagged member
reads: plain for `Wkb` and `Geopackage`, extended for `Ewkb`. -/
def nested_header_of : WkbDialect → HdrFn
  | .Wkb => read_wkb_header
  | .Ewkb => read_ewkb_header
  | .Geopackage => read_wkb_header

/-- C1 counterexample: an EWKB `MULTIPOINT` with one member whose tagged
header carries the EWKB Z flag (type code `0x80000001`).  The actual
decoder reads the member header with the extended decoder (Z recognised, a
z value consumed and emitted); reading it with the plain decoder, as the
claim requires, treats the member as 2-D and leaves 8 bytes unconsumed.
The two runs differ, refuting "nested reads always use the plain decoder". -/
theorem c1_ewkb_nested_not_plain :
    process_ewkb_geom
        ([1, 4, 0, 0, 128, 1, 0, 0, 0, 1, 1, 0, 0, 128] ++ List.replicate 24 0)
        (fun _ => true) ≠
      process_geom_plain_nested read_ewkb_header
        ([1, 4, 0, 0, 128, 1, 0, 0, 0, 1, 1, 0, 0, 128] ++ List.replicate 24 0)
        (fun _ => true) := by decide

/-- C1 (amended): nested tagged member headers are read with the header
decoder fixed by the dialect at entry — the plain decoder for the `Wkb` and
`Geopackage` dialects, the *extended* decoder for the `Ewkb` dialect — and
that choice is threaded unchanged through the whole recursion, never chosen
per call.  In particular the GeoPackage and plain entry points coincide
with the spec's plain-nested decode. -/
theorem nested_header_fixed_by_dialect :
    (∀ (d : WkbDialect) (b : List Nat) (p : Oracle),
      process_wkb_type_geom d b p =
        (do
          let info ← liftHdr (outer_header_of d)
          process_wkb_geom_n (b.length + 1) info (nested_header_of d) 0 p)
          (initSt b)) ∧
    (∀ (b : List Nat) (p : Oracle),
      process_gpkg_geom b p = process_geom_plain_nested read_gpkg_header b p) ∧
    (∀ (b : List Nat) (p : Oracle),
      process_wkb_geom b p = process_geom_plain_nested read_wkb_header b p) :=
  ⟨fun d _ _ => by cases d <;> rfl, fun _ _ => rfl, fun _ _ => rfl⟩

/-! ## C4 — GeoPackage magic bytes -/

/-- C4: if the first two bytes are not the ASCII bytes "GP" (71, 80), the
GeoPackage entry point fails with a geometry-format error and the trace is
still empty: no processor method was called. -/
theorem gpkg_bad_magic :
    ∀ (a c : Nat) (rest : List Nat) (p : Oracle),
      ¬(a % 256 = 71 ∧ c % 256 = 80) →
      process_gpkg_geom (a :: c :: rest) p =
        (.error .formatError, initSt (a :: c :: rest)) := by
  intro a c rest p h
  have hg : read_gpkg_header (a :: c :: rest) = .error .formatError := by
    simp only [read_gpkg_header, readU8, exceptBind_ok]
    rw [if_neg h]
  simp only [process_gpkg_geom, M.bind_apply, liftHdr, initSt, hg]

/-- Witness for C4 at a concrete input. -/
theorem gpkg_bad_magic_witness :
    process_gpkg_geom [0, 80, 3] (fun _ => true) =
      (.error .formatError, initSt [0, 80, 3]) :=
  gpkg_bad_magic 0 80 [3] (fun _ => true) (by decide)

/-! ## C7 — determinism -/

/-- C7: decoding is a pure function of the input bytes, the dialect and the
processor's `multi_dim()` answers: equal inputs give identical processor
call sequences and identical results. -/
theorem decode_deterministic :
    ∀ (d : WkbDialect) (b1 b2 : List Nat) (p1 p2 : Oracle),
      b1 = b2 → (∀ n, p1 n = p2 n) →
      process_wkb_type_geom d b1 p1 = process_wkb_type_geom d b2 p2 := by
  intro d b1 b2 p1 p2 hb hp
  subst hb
  have hpp : p1 = p2 := funext hp
  rw [hpp]

/-- Witness for C7 at a concrete input. -/
theorem decode_deterministic_witness :
    process_wkb_type_geom .Ewkb [1, 1, 0, 0, 0] (fun _ => true) =
      process_wkb_type_geom .Ewkb [1, 1, 0, 0, 0] (fun _ => true) :=
  decode_deterministic .Ewkb [1, 1, 0, 0, 0] [1, 1, 0, 0, 0]
    (fun _ => true) (fun _ => true) rfl (fun _ => rfl)

/-! ## C9 — plain headers with dimension tier 4 or greater -/

/-- C9: a plain WKB header whose type code has dimension tier
`type_id / 1000 ≥ 4` still decodes successfully; it is treated as 2-D
(`has_z = has_m = false`) and the base kind is still `type_id mod 1000`. -/
theorem wkb_header_dim_tier_ge4 :
    ∀ (b0 b1 b2 b3 b4 : Nat) (rest : List Nat),
      4 ≤ asmU32 (if b0 % 256 = 0 then .be else .le) b1 b2 b3 b4 / 1000 →
      read_wkb_header (b0 :: b1 :: b2 :: b3 :: b4 :: rest) =
        .ok (⟨if b0 % 256 = 0 then .be else .le,
              .from_u32
                (asmU32 (if b0 % 256 = 0 then .be else .le) b1 b2 b3 b4 % 1000),
              false, false, none, []⟩, rest) := by
  intro b0 b1 b2 b3 b4 rest h
  simp only [read_wkb_header, readU8, readU32, exceptBind_ok, exceptPure]
  have h1 : (asmU32 (if b0 % 256 = 0 then Endian.be else Endian.le)
      b1 b2 b3 b4 / 1000 == 1) = false := by
    simp only [beq_eq_false_iff_ne, ne_eq]
    omega
  have h3 : (asmU32 (if b0 % 256 = 0 then Endian.be else Endian.le)
      b1 b2 b3 b4 / 1000 == 3) = false := by
    simp only [beq_eq_false_iff_ne, ne_eq]
    omega
  have h2 : (asmU32 (if b0 % 256 = 0 then Endian.be else Endian.le)
      b1 b2 b3 b4 / 1000 == 2) = false := by
    simp only [beq_eq_false_iff_ne, ne_eq]
    omega
  rw [h1, h2, h3]
  rfl

/-- Witness for C9: type code 4001 (tier 4, base 1 = Point). -/
theorem wkb_header_dim_tier_ge4_witness :
    read_wkb_header [1, 161, 15, 0, 0] =
      .ok (⟨.le, .Point, false, false, none, []⟩, []) :=
  wkb_header_dim_tier_ge4 1 161 15 0 0 [] (by decide)

/-! ## C10 — MultiPoint members governed by their own headers -/

/-- C10: the processing of a `MultiPoint` is entirely independent of the
parent header's `has_z` / `has_m` (and `srid` / `envelope`) — only the
parent's byte order (for the member count) matters; each member's
coordinate read is governed by its own freshly read tagged header.  The
closed conjunct decodes a little-endian 2-D `MultiPoint` whose first
member is a big-endian Z point (type code 1001) and whose second member is
a little-endian 2-D point: both are decoded per their own headers, the Z
value being consumed and emitted only for the first member. -/
theorem multipoint_member_own_header :
    (∀ (fuel : Nat) (rh : HdrFn) (idx : Nat) (p : Oracle) (e : Endian)
       (z1 m1 z2 m2 : Bool) (s1 s2 : Option Int) (v1 v2 : List Nat),
      process_wkb_geom_n fuel ⟨e, .MultiPoint, z1, m1, s1, v1⟩ rh idx p =
        process_wkb_geom_n fuel ⟨e, .MultiPoint, z2, m2, s2, v2⟩ rh idx p) ∧
    process_wkb_geom
        ([1, 4, 0, 0, 0, 2, 0, 0, 0, 0, 0, 0, 3, 233] ++ List.replicate 24 0 ++
          [1, 1, 0, 0, 0] ++ List.replicate 16 0)
        (fun _ => true) =
      (.ok (), ⟨[], 1,
        [.multipointBegin 2 0, .multiDim true,
         .coordinate 0 0 (some 0) none none none 0,
         .coordinate 0 0 none none none none 1,
         .multipointEnd 0]⟩) := by
  constructor
  · intro fuel rh idx p e z1 m1 z2 m2 s1 s2 v1 v2
    cases fuel <;> rfl
  · decide

/-! ## C8 — the walker never consults `srid` or `envelope` -/

theorem process_coord_frame (e : Endian) (t : WKBGeometryType) (z m : Bool)
    (multi : Bool) (idx : Nat) (s1 s2 : Option Int) (v1 v2 : List Nat) :
    process_coord ⟨e, t, z, m, s1, v1⟩ multi idx =
      process_coord ⟨e, t, z, m, s2, v2⟩ multi idx := rfl

theorem coordLoop_frame (e : Endian) (t : WKBGeometryType) (z m : Bool)
    (multi : Bool) (s1 s2 : Option Int) (v1 v2 : List Nat) :
    ∀ (n i : Nat),
      coordLoop ⟨e, t, z, m, s1, v1⟩ multi n i =
        coordLoop ⟨e, t, z, m, s2, v2⟩ multi n i := by
  intro n
  induction n with
  | zero => exact fun _ => rfl
  | succ k ih =>
    intro i
    simp only [coordLoop]
    rw [process_coord_frame e t z m multi i s1 s2 v1 v2]
    exact M.bind_congr _ fun _ => ih (i + 1)

theorem process_linestring_frame (e : Endian) (t : WKBGeometryType)
    (z m : Bool) (tagged : Bool) (idx : Nat) (p : Oracle)
    (s1 s2 : Option Int) (v1 v2 : List Nat) :
    process_linestring ⟨e, t, z, m, s1, v1⟩ tagged idx p =
      process_linestring ⟨e, t, z, m, s2, v2⟩ tagged idx p := by
  simp only [process_linestring, WkbInfo.endian_mk]
  exact M.bind_congr _ fun len => M.bind_congr _ fun _ =>
    M.bind_congr _ fun multi => by
      rw [coordLoop_frame e t z m multi s1 s2 v1 v2 len 0]

theorem process_circularstring_frame (e : Endian) (t : WKBGeometryType)
    (z m : Bool) (idx : Nat) (p : Oracle)
    (s1 s2 : Option Int) (v1 v2 : List Nat) :
    process_circularstring ⟨e, t, z, m, s1, v1⟩ idx p =
      process_circularstring ⟨e, t, z, m, s2, v2⟩ idx p := by
  simp only [process_circularstring, WkbInfo.endian_mk]
  exact M.bind_congr _ fun len => M.bind_congr _ fun _ =>
    M.bind_congr _ fun multi => by
      rw [coordLoop_frame e t z m multi s1 s2 v1 v2 len 0]

theorem ringLoop_frame (e : Endian) (t : WKBGeometryType) (z m : Bool)
    (p : Oracle) (s1 s2 : Option Int) (v1 v2 : List Nat) :
    ∀ (n i : Nat),
      ringLoop ⟨e, t, z, m, s1, v1⟩ p n i =
        ringLoop ⟨e, t, z, m, s2, v2⟩ p n i := by
  intro n
  induction n with
  | zero => exact fun _ => rfl
  | succ k ih =>
    intro i
    simp only [ringLoop]
    rw [process_linestring_frame e t z m false i p s1 s2 v1 v2]
    exact M.bind_congr _ fun _ => ih (i + 1)

theorem process_polygon_frame (e : Endian) (t : WKBGeometryType)
    (z m : Bool) (tagged : Bool) (idx : Nat) (p : Oracle)
    (s1 s2 : Option Int) (v1 v2 : List Nat) :
    process_polygon ⟨e, t, z, m, s1, v1⟩ tagged idx p =
      process_polygon ⟨e, t, z, m, s2, v2⟩ tagged idx p := by
  simp only [process_polygon, WkbInfo.endian_mk]
  exact M.bind_congr _ fun rc => M.bind_congr _ fun _ => by
    rw [ringLoop_frame e t z m p s1 s2 v1 v2 rc 0]

theorem process_triangle_frame (e : Endian) (t : WKBGeometryType)
    (z m : Bool) (tagged : Bool) (idx : Nat) (p : Oracle)
    (s1 s2 : Option Int) (v1 v2 : List Nat) :
    process_triangle ⟨e, t, z, m, s1, v1⟩ tagged idx p =
      process_triangle ⟨e, t, z, m, s2, v2⟩ tagged idx p := by
  simp only [process_triangle, WkbInfo.endian_mk]
  exact M.bind_congr _ fun rc => M.bind_congr _ fun _ => by
    rw [ringLoop_frame e t z m p s1 s2 v1 v2 rc 0]

/-- C8: the walker's behaviour — every processor call it makes, every byte
it reads, and its result — is invariant under the header's `srid` and
`envelope` fields.  They are decoded into the header record, never
consulted by the walk, and hence never forwarded to the processor (the
processor call type `PCall` has no srid/envelope-carrying call at all). -/
theorem walker_ignores_srid_envelope :
    ∀ (fuel : Nat) (rh : HdrFn) (idx : Nat) (p : Oracle) (e : Endian)
      (t : WKBGeometryType) (z m : Bool) (s1 s2 : Option Int)
      (v1 v2 : List Nat),
      process_wkb_geom_n fuel ⟨e, t, z, m, s1, v1⟩ rh idx p =
        process_wkb_geom_n fuel ⟨e, t, z, m, s2, v2⟩ rh idx p := by
  intro fuel rh idx p e t z m s1 s2 v1 v2
  cases fuel with
  | zero => rfl
  | succ k =>
    cases t
    case LineString =>
      show process_linestring ⟨e, .LineString, z, m, s1, v1⟩ true idx p =
        process_linestring ⟨e, .LineString, z, m, s2, v2⟩ true idx p
      exact process_linestring_frame e .LineString z m true idx p s1 s2 v1 v2
    case CircularString =>
      show process_circularstring ⟨e, .CircularString, z, m, s1, v1⟩ idx p =
        process_circularstring ⟨e, .CircularString, z, m, s2, v2⟩ idx p
      exact process_circularstring_frame e .CircularString z m idx p s1 s2 v1 v2
    case Polygon =>
      show process_polygon ⟨e, .Polygon, z, m, s1, v1⟩ true idx p =
        process_polygon ⟨e, .Polygon, z, m, s2, v2⟩ true idx p
      exact process_polygon_frame e .Polygon z m true idx p s1 s2 v1 v2
    case Triangle =>
      show process_triangle ⟨e, .Triangle, z, m, s1, v1⟩ true idx p =
        process_triangle ⟨e, .Triangle, z, m, s2, v2⟩ true idx p
      exact process_triangle_frame e .Triangle z m true idx p s1 s2 v1 v2
    all_goals rfl

/-! ## C3 — constrained-collection members of the wrong kind -/

theorem ccLoop_bad_kind (rh : HdrFn) (p : Oracle) (n i : Nat) (s : St)
    (info : WkbInfo) (b2 : List Nat)
    (h : rh s.bytes = .ok (info, b2))
    (h1 : info.base_type ≠ .CircularString)
    (h2 : info.base_type ≠ .LineString) :
    ccLoop rh p (n + 1) i s = (.error .formatError, { s with bytes := b2 }) := by
  simp only [ccLoop, M.bind_apply, liftHdr, h]
  cases hbt : info.base_type <;> simp_all [throwErr, M.bind_apply]

theorem process_curve_bad_kind (rh : HdrFn) (p : Oracle) (i : Nat) (s : St)
    (info : WkbInfo) (b2 : List Nat)
    (h : rh s.bytes = .ok (info, b2))
    (h1 : info.base_type ≠ .CircularString)
    (h2 : info.base_type ≠ .LineString)
    (h3 : info.base_type ≠ .CompoundCurve) :
    process_curve rh i p s = (.error .formatError, { s with bytes := b2 }) := by
  simp only [process_curve, M.bind_apply, liftHdr, h]
  cases hbt : info.base_type <;> simp_all [throwErr]

theorem cpLoop_bad_kind (rh : HdrFn) (p : Oracle) (n i : Nat) (s : St)
    (info : WkbInfo) (b2 : List Nat)
    (h : rh s.bytes = .ok (info, b2))
    (h1 : info.base_type ≠ .CircularString)
    (h2 : info.base_type ≠ .LineString)
    (h3 : info.base_type ≠ .CompoundCurve) :
    cpLoop rh p (n + 1) i s = (.error .formatError, { s with bytes := b2 }) := by
  simp only [cpLoop, M.bind_apply,
    process_curve_bad_kind rh p i s info b2 h h1 h2 h3]

theorem mcLoop_bad_kind (rh : HdrFn) (p : Oracle) (n i : Nat) (s : St)
    (info : WkbInfo) (b2 : List Nat)
    (h : rh s.bytes = .ok (info, b2))
    (h1 : info.base_type ≠ .CircularString)
    (h2 : info.base_type ≠ .LineString)
    (h3 : info.base_type ≠ .CompoundCurve) :
    mcLoop rh p (n + 1) i s = (.error .formatError, { s with bytes := b2 }) := by
  simp only [mcLoop, M.bind_apply,
    process_curve_bad_kind rh p i s info b2 h h1 h2 h3]

theorem msLoop_bad_kind (rh : HdrFn) (p : Oracle) (n i : Nat) (s : St)
    (info : WkbInfo) (b2 : List Nat)
    (h : rh s.bytes = .ok (info, b2))
    (h1 : info.base_type ≠ .CurvePolygon)
    (h2 : info.base_type ≠ .Polygon) :
    msLoop rh p (n + 1) i s = (.error .formatError, { s with bytes := b2 }) := by
  simp only [msLoop, M.bind_apply, liftHdr, h]
  cases hbt : info.base_type <;> simp_all [throwErr, M.bind_apply]

/-- C3: in every constrained collection, a member whose freshly decoded
tagged header has a base kind outside the permitted set makes the decode
fail with a geometry-format error exactly at that member's header read:
the returned state has the bytes positioned just after the offending
header and an unchanged trace — no processor call is made for or after the
offending member.  The statement quantifies over the loop state `s`
reached after the earlier members, which the same loops process normally.
Permitted sets: CompoundCurve segments {CircularString, LineString};
CurvePolygon rings and MultiCurve members {CircularString, LineString,
CompoundCurve}; MultiSurface members {CurvePolygon, Polygon}. -/
theorem constrained_member_bad_kind :
    ∀ (rh : HdrFn) (p : Oracle) (s : St) (info : WkbInfo) (b2 : List Nat),
      rh s.bytes = .ok (info, b2) →
      (info.base_type ≠ .CircularString → info.base_type ≠ .LineString →
        ∀ n i, ccLoop rh p (n + 1) i s =
          (.error .formatError, { s with bytes := b2 })) ∧
      (info.base_type ≠ .CircularString → info.base_type ≠ .LineString →
        info.base_type ≠ .CompoundCurve →
        ∀ i, process_curve rh i p s =
          (.error .formatError, { s with bytes := b2 })) ∧
      (info.base_type ≠ .CircularString → info.base_type ≠ .LineString →
        info.base_type ≠ .CompoundCurve →
        ∀ n i, cpLoop rh p (n + 1) i s =
          (.error .formatError, { s with bytes := b2 })) ∧
      (info.base_type ≠ .CircularString → info.base_type ≠ .LineString →
        info.base_type ≠ .CompoundCurve →
        ∀ n i, mcLoop rh p (n + 1) i s =
          (.error .formatError, { s with bytes := b2 })) ∧
      (info.base_type ≠ .CurvePolygon → info.base_type ≠ .Polygon →
        ∀ n i, msLoop rh p (n + 1) i s =
          (.error .formatError, { s with bytes := b2 })) :=
  fun rh p s info b2 h =>
    ⟨fun h1 h2 n i => ccLoop_bad_kind rh p n i s info b2 h h1 h2,
     fun h1 h2 h3 i => process_curve_bad_kind rh p i s info b2 h h1 h2 h3,
     fun h1 h2 h3 n i => cpLoop_bad_kind rh p n i s info b2 h h1 h2 h3,
     fun h1 h2 h3 n i => mcLoop_bad_kind rh p n i s info b2 h h1 h2 h3,
     fun h1 h2 n i => msLoop_bad_kind rh p n i s info b2 h h1 h2⟩

/-- Witness for C3: a tagged Polygon header (type code 3) as the next
member of a CompoundCurve segment list aborts the segment loop with a
format error, trace unchanged. -/
theorem constrained_member_bad_kind_witness :
    ccLoop read_wkb_header (fun _ => false) 1 0
        ⟨[1, 3, 0, 0, 0], 0, [.compoundcurveBegin 1 0]⟩ =
      (.error .formatError, ⟨[], 0, [.compoundcurveBegin 1 0]⟩) :=
  (constrained_member_bad_kind read_wkb_header (fun _ => false)
      ⟨[1, 3, 0, 0, 0], 0, [.compoundcurveBegin 1 0]⟩
      ⟨.le, .Polygon, false, false, none, []⟩ [] (by decide)).1
    (by decide) (by decide) 0 0

/-! ## C5 — the GeoPackage header merge -/

/-- C5: every successfully decoded GeoPackage header merges three sources:
`base_type` / `has_z` / `has_m` come from the embedded plain WKB header
(decoded by `read_wkb_header` after the prefix), `byte_order` comes from
bit 0 of the GeoPackage flags byte (0 = big-endian, 1 = little-endian),
and `srid` / `envelope` come from the GeoPackage prefix's own fields. -/
theorem gpkg_header_merge :
    ∀ (b : List Nat) (info : WkbInfo) (rest : List Nat),
      read_gpkg_header b = .ok (info, rest) →
      ∃ (g1 g2 ver fb : Nat) (tail afterSrid mid env : List Nat)
        (sridv : Int) (env_len : Nat) (ogc : WkbInfo),
        b = g1 :: g2 :: ver :: fb :: tail ∧
        readI32 (if fb % 256 % 2 = 0 then .be else .le) tail =
          .ok (sridv, afterSrid) ∧
        readF64List (if fb % 256 % 2 = 0 then .be else .le) env_len afterSrid =
          .ok (env, mid) ∧
        read_wkb_header mid = .ok (ogc, rest) ∧
        info = ⟨if fb % 256 % 2 = 0 then .be else .le,
                ogc.base_type, ogc.has_z, ogc.has_m, some sridv, env⟩ := by
  intro b info rest h
  unfold read_gpkg_header at h
  obtain ⟨⟨m0, raw1⟩, h1, h⟩ := exceptBind_ok_inv h
  obtain ⟨g1, hb1, hm0⟩ := readU8_ok_inv h1
  obtain ⟨⟨m1, raw2⟩, h2, h⟩ := exceptBind_ok_inv h
  obtain ⟨g2, hb2, hm1⟩ := readU8_ok_inv h2
  simp only [] at h
  by_cases hcond : m0 = 71 ∧ m1 = 80
  · rw [if_pos hcond] at h
    obtain ⟨⟨ver0, raw3⟩, h3, h⟩ := exceptBind_ok_inv h
    simp only [] at h
    obtain ⟨ver, hb3, hver⟩ := readU8_ok_inv h3
    obtain ⟨⟨flags, raw4⟩, h4, h⟩ := exceptBind_ok_inv h
    simp only [] at h
    obtain ⟨fb, hb4, hfl⟩ := readU8_ok_inv h4
    obtain ⟨env_len, h5, h⟩ := exceptBind_ok_inv h
    obtain ⟨⟨sridv, raw5⟩, h6, h⟩ := exceptBind_ok_inv h
    simp only [] at h
    obtain ⟨⟨env, raw6⟩, h7, h⟩ := exceptBind_ok_inv h
    simp only [] at h
    obtain ⟨⟨ogc, raw7⟩, h8, h⟩ := exceptBind_ok_inv h
    simp only [] at h
    injection h with h'
    injection h' with hinfo hrest
    subst hfl
    subst hrest
    refine ⟨g1, g2, ver, fb, raw4, raw5, raw6, env, sridv, env_len, ogc,
      ?_, h6, h7, h8, hinfo.symm⟩
    rw [hb1, hb2, hb3, hb4]
  · rw [if_neg hcond] at h
    exact Except.noConfusion h

/-- Witness for C5 at a concrete GeoPackage point header (flags = 1:
little-endian, no envelope; SRID 4326; embedded 2-D Point header). -/
theorem gpkg_header_merge_witness :
    ∃ (g1 g2 ver fb : Nat) (tail afterSrid mid env : List Nat)
      (sridv : Int) (env_len : Nat) (ogc : WkbInfo),
      ([71, 80, 0, 1, 230, 16, 0, 0, 1, 1, 0, 0, 0] : List Nat) =
        g1 :: g2 :: ver :: fb :: tail ∧
      readI32 (if fb % 256 % 2 = 0 then .be else .le) tail =
        .ok (sridv, afterSrid) ∧
      readF64List (if fb % 256 % 2 = 0 then .be else .le) env_len afterSrid =
        .ok (env, mid) ∧
      read_wkb_header mid = .ok (ogc, []) ∧
      (⟨.le, .Point, false, false, some 4326, []⟩ : WkbInfo) =
        ⟨if fb % 256 % 2 = 0 then .be else .le,
         ogc.base_type, ogc.has_z, ogc.has_m, some sridv, env⟩ :=
  gpkg_header_merge [71, 80, 0, 1, 230, 16, 0, 0, 1, 1, 0, 0, 0]
    ⟨.le, .Point, false, false, some 4326, []⟩ [] (by decide)

/-! ## C6 — the envelope length invariant -/

theorem gpkg_env_len_table :
    ∀ (b : List Nat) (info : WkbInfo) (rest : List Nat),
      read_gpkg_header b = .ok (info, rest) →
      ∃ (g1 g2 ver fb : Nat) (tail : List Nat),
        b = g1 :: g2 :: ver :: fb :: tail ∧
        info.envelope.length =
          (match fb % 256 / 2 % 8 with
           | 0 => 0 | 1 => 4 | 2 => 6 | 3 => 6 | 4 => 8 | _ => 0) ∧
        (info.envelope.length = 0 ∨ info.envelope.length = 4 ∨
         info.envelope.length = 6 ∨ info.envelope.length = 8) := by
  intro b info rest h
  unfold read_gpkg_header at h
  obtain ⟨⟨m0, raw1⟩, h1, h⟩ := exceptBind_ok_inv h
  obtain ⟨g1, hb1, hm0⟩ := readU8_ok_inv h1
  obtain ⟨⟨m1, raw2⟩, h2, h⟩ := exceptBind_ok_inv h
  obtain ⟨g2, hb2, hm1⟩ := readU8_ok_inv h2
  simp only [] at h
  by_cases hcond : m0 = 71 ∧ m1 = 80
  · rw [if_pos hcond] at h
    obtain ⟨⟨ver0, raw3⟩, h3, h⟩ := exceptBind_ok_inv h
    simp only [] at h
    obtain ⟨ver, hb3, hver⟩ := readU8_ok_inv h3
    obtain ⟨⟨flags, raw4⟩, h4, h⟩ := exceptBind_ok_inv h
    simp only [] at h
    obtain ⟨fb, hb4, hfl⟩ := readU8_ok_inv h4
    obtain ⟨env_len, h5, h⟩ := exceptBind_ok_inv h
    obtain ⟨⟨sridv, raw5⟩, h6, h⟩ := exceptBind_ok_inv h
    simp only [] at h
    obtain ⟨⟨env, raw6⟩, h7, h⟩ := exceptBind_ok_inv h
    simp only [] at h
    obtain ⟨⟨ogc, raw7⟩, h8, h⟩ := exceptBind_ok_inv h
    simp only [] at h
    injection h with h'
    injection h' with hinfo hrest
    subst hfl
    have henvlen : env.length = env_len := readF64List_length h7
    have hlt : fb % 256 / 2 % 8 < 8 := Nat.mod_lt _ (by norm_num)
    have hmain : info.envelope.length =
        (match fb % 256 / 2 % 8 with
         | 0 => 0 | 1 => 4 | 2 => 6 | 3 => 6 | 4 => 8 | _ => 0) := by
      rw [← hinfo]
      rw [WkbInfo.envelope_mk]
      set c := fb % 256 / 2 % 8 with hcdef
      interval_cases c
      all_goals first
        | exact Except.noConfusion h5
        | (injection h5 with h5v; exact henvlen.trans h5v.symm)
    refine ⟨g1, g2, ver, fb, raw4, ?_, hmain, ?_⟩
    · rw [hb1, hb2, hb3, hb4]
    · rw [hmain]
      set c := fb % 256 / 2 % 8 with hcdef
      interval_cases c
      all_goals first
        | exact Except.noConfusion h5
        | simp
  · rw [if_neg hcond] at h
    exact Except.noConfusion h

theorem gpkg_env_code_bad :
    ∀ (g1 g2 ver fb : Nat) (tail : List Nat),
      g1 % 256 = 71 → g2 % 256 = 80 → 5 ≤ fb % 256 / 2 % 8 →
      read_gpkg_header (g1 :: g2 :: ver :: fb :: tail) =
        .error .formatError := by
  intro g1 g2 ver fb tail hg1 hg2 hc
  simp only [read_gpkg_header, readU8, exceptBind_ok]
  rw [if_pos (show g1 % 256 = 71 ∧ g2 % 256 = 80 from ⟨hg1, hg2⟩)]
  have hlt : fb % 256 / 2 % 8 < 8 := Nat.mod_lt _ (by norm_num)
  set c := fb % 256 / 2 % 8 with hcdef
  interval_cases c <;> rfl

theorem wkb_header_env_empty :
    ∀ (b : List Nat) (info : WkbInfo) (rest : List Nat),
      read_wkb_header b = .ok (info, rest) → info.envelope = [] := by
  intro b info rest h
  unfold read_wkb_header at h
  obtain ⟨⟨bo, raw1⟩, h1, h⟩ := exceptBind_ok_inv h
  simp only [] at h
  obtain ⟨⟨tid, raw2⟩, h2, h⟩ := exceptBind_ok_inv h
  simp only [] at h
  injection h with h'
  injection h' with hinfo hrest
  rw [← hinfo]

theorem ewkb_header_env_empty :
    ∀ (b : List Nat) (info : WkbInfo) (rest : List Nat),
      read_ewkb_header b = .ok (info, rest) → info.envelope = [] := by
  intro b info rest h
  unfold read_ewkb_header at h
  obtain ⟨⟨bo, raw1⟩, h1, h⟩ := exceptBind_ok_inv h
  simp only [] at h
  obtain ⟨⟨tid, raw2⟩, h2, h⟩ := exceptBind_ok_inv h
  simp only [] at h
  by_cases hbit : (tid / 2 ^ 29 % 2 == 1) = true
  · rw [if_pos hbit] at h
    obtain ⟨⟨sridv, raw3⟩, h3, h⟩ := exceptBind_ok_inv h
    simp only [] at h
    injection h with h'
    injection h' with hinfo hrest
    rw [← hinfo]
  · rw [if_neg hbit] at h
    injection h with h'
    injection h' with hinfo hrest
    rw [← hinfo]

/-- C6: the GeoPackage envelope float count is fixed by the 3-bit envelope
code (bits 1–3 of the flags byte) via the table 0→0, 1→4, 2→6, 3→6, 4→8;
codes 5–7 are a geometry-format error; hence every produced header has
`envelope.length ∈ {0, 4, 6, 8}`; and the plain and extended header
decoders always produce an empty envelope. -/
theorem gpkg_envelope_invariant :
    (∀ (b : List Nat) (info : WkbInfo) (rest : List Nat),
      read_gpkg_header b = .ok (info, rest) →
      ∃ (g1 g2 ver fb : Nat) (tail : List Nat),
        b = g1 :: g2 :: ver :: fb :: tail ∧
        info.envelope.length =
          (match fb % 256 / 2 % 8 with
           | 0 => 0 | 1 => 4 | 2 => 6 | 3 => 6 | 4 => 8 | _ => 0) ∧
        (info.envelope.length = 0 ∨ info.envelope.length = 4 ∨
         info.envelope.length = 6 ∨ info.envelope.length = 8)) ∧
    (∀ (g1 g2 ver fb : Nat) (tail : List Nat),
      g1 % 256 = 71 → g2 % 256 = 80 → 5 ≤ fb % 256 / 2 % 8 →
      read_gpkg_header (g1 :: g2 :: ver :: fb :: tail) =
        .error .formatError) ∧
    (∀ (b : List Nat) (info : WkbInfo) (rest : List Nat),
      read_wkb_header b = .ok (info, rest) → info.envelope = []) ∧
    (∀ (b : List Nat) (info : WkbInfo) (rest : List Nat),
      read_ewkb_header b = .ok (info, rest) → info.envelope = []) :=
  ⟨gpkg_env_len_table, gpkg_env_code_bad,
   wkb_header_env_empty, ewkb_header_env_empty⟩

/-- Witness for C6: envelope code 5 (flags byte 10) is rejected. -/
theorem gpkg_envelope_invariant_witness :
    read_gpkg_header [71, 80, 0, 10, 0, 0, 0, 0] = .error .formatError :=
  gpkg_envelope_invariant.2.1 71 80 0 10 [0, 0, 0, 0]
    (by decide) (by decide) (by decide)


/-! ## C2 — the multi_dim query and z/m consumption -/

theorem readF64_ok_inv {e : Endian} {l : List Nat} {v : Nat} {rest : List Nat}
    (h : readF64 e l = .ok (v, rest)) : rest = l.drop 8 := by
  match l with
  | [] | [_] | [_, _] | [_, _, _] | [_, _, _, _] | [_, _, _, _, _]
  | [_, _, _, _, _, _] | [_, _, _, _, _, _, _] => exact Except.noConfusion h
  | b0 :: b1 :: b2 :: b3 :: b4 :: b5 :: b6 :: b7 :: tl =>
    injection h with h'
    injection h' with h1 h2
    rw [← h2]
    rfl

theorem process_coord_multi_indep :
    ∀ (info : WkbInfo) (idx : Nat) (s : St),
      (process_coord info true idx s).2.bytes =
        (process_coord info false idx s).2.bytes ∧
      ((process_coord info true idx s).1 = .ok () ↔
        (process_coord info false idx s).1 = .ok ()) ∧
      ((process_coord info true idx s).1 = .ok () →
        (process_coord info true idx s).2.bytes =
          s.bytes.drop (16 + (if info.has_z then 8 else 0) +
            (if info.has_m then 8 else 0)) ∧
        ∃ x y z m,
          (process_coord info true idx s).2.trace =
            s.trace ++ [.coordinate x y z m none none idx] ∧
          (process_coord info false idx s).2.trace =
            s.trace ++ [.xy x y idx] ∧
          z.isSome = info.has_z ∧ m.isSome = info.has_m) := by
  intro info idx s
  obtain ⟨e, t, hz, hm, sr, env⟩ := info
  cases hz <;> cases hm
  · simp only [process_coord, M.bind_apply, M.pure_apply, readF64M, emit,
      WkbInfo.endian_mk, WkbInfo.has_z_mk, WkbInfo.has_m_mk,
      Bool.false_eq_true, if_false, if_true]
    cases h1 : readF64 e s.bytes with
    | error er => simp
    | ok p1 =>
      obtain ⟨x, b1⟩ := p1
      simp only []
      cases h2 : readF64 e b1 with
      | error er => simp
      | ok p2 =>
        obtain ⟨y, b2⟩ := p2
        simp only []
        refine ⟨trivial, trivial,
          fun _ => ⟨?_, x, y, none, none, rfl, rfl, rfl, rfl⟩⟩
        rw [readF64_ok_inv h2, readF64_ok_inv h1, List.drop_drop]
  · simp only [process_coord, M.bind_apply, M.pure_apply, readF64M, emit,
      WkbInfo.endian_mk, WkbInfo.has_z_mk, WkbInfo.has_m_mk,
      Bool.false_eq_true, if_false, if_true]
    cases h1 : readF64 e s.bytes with
    | error er => simp
    | ok p1 =>
      obtain ⟨x, b1⟩ := p1
      simp only []
      cases h2 : readF64 e b1 with
      | error er => simp
      | ok p2 =>
        obtain ⟨y, b2⟩ := p2
        simp only []
        cases h3 : readF64 e b2 with
        | error er => simp
        | ok p3 =>
          obtain ⟨mv, b3⟩ := p3
          simp only []
          refine ⟨trivial, trivial,
            fun _ => ⟨?_, x, y, none, some mv, rfl, rfl, rfl, rfl⟩⟩
          rw [readF64_ok_inv h3, readF64_ok_inv h2, readF64_ok_inv h1,
            List.drop_drop, List.drop_drop]
  · simp only [process_coord, M.bind_apply, M.pure_apply, readF64M, emit,
      WkbInfo.endian_mk, WkbInfo.has_z_mk, WkbInfo.has_m_mk,
      Bool.false_eq_true, if_false, if_true]
    cases h1 : readF64 e s.bytes with
    | error er => simp
    | ok p1 =>
      obtain ⟨x, b1⟩ := p1
      simp only []
      cases h2 : readF64 e b1 with
      | error er => simp
      | ok p2 =>
        obtain ⟨y, b2⟩ := p2
        simp only []
        cases h3 : readF64 e b2 with
        | error er => simp
        | ok p3 =>
          obtain ⟨zv, b3⟩ := p3
          simp only []
          refine ⟨trivial, trivial,
            fun _ => ⟨?_, x, y, some zv, none, rfl, rfl, rfl, rfl⟩⟩
          rw [readF64_ok_inv h3, readF64_ok_inv h2, readF64_ok_inv h1,
            List.drop_drop, List.drop_drop]
  · simp only [process_coord, M.bind_apply, M.pure_apply, readF64M, emit,
      WkbInfo.endian_mk, WkbInfo.has_z_mk, WkbInfo.has_m_mk,
      Bool.false_eq_true, if_false, if_true]
    cases h1 : readF64 e s.bytes with
    | error er => simp
    | ok p1 =>
      obtain ⟨x, b1⟩ := p1
      simp only []
      cases h2 : readF64 e b1 with
      | error er => simp
      | ok p2 =>
        obtain ⟨y, b2⟩ := p2
        simp only []
        cases h3 : readF64 e b2 with
        | error er => simp
        | ok p3 =>
          obtain ⟨zv, b3⟩ := p3
          simp only []
          cases h4 : readF64 e b3 with
          | error er => simp
          | ok p4 =>
            obtain ⟨mv, b4⟩ := p4
            simp only []
            refine ⟨trivial, trivial,
              fun _ => ⟨?_, x, y, some zv, some mv, rfl, rfl, rfl, rfl⟩⟩
            rw [readF64_ok_inv h4, readF64_ok_inv h3, readF64_ok_inv h2,
              readF64_ok_inv h1, List.drop_drop, List.drop_drop,
              List.drop_drop]

/-- Number of `multi_dim()` queries recorded in a trace. -/
def countMultiDim : List PCall → Nat
  | [] => 0
  | .multiDim _ :: r => countMultiDim r + 1
  | _ :: r => countMultiDim r

/-- Number of coordinate emissions (`coordinate` or `xy` calls) in a
trace. -/
def countCoordEmit : List PCall → Nat
  | [] => 0
  | .coordinate _ _ _ _ _ _ _ :: r => countCoordEmit r + 1
  | .xy _ _ _ :: r => countCoordEmit r + 1
  | _ :: r => countCoordEmit r

theorem countMultiDim_append (l1 l2 : List PCall) :
    countMultiDim (l1 ++ l2) = countMultiDim l1 + countMultiDim l2 := by
  induction l1 with
  | nil => simp [countMultiDim]
  | cons hd tl ih =>
    cases hd
    all_goals simp [countMultiDim, ih]
    all_goals omega

theorem process_coord_cnt (info : WkbInfo) (multi : Bool) (idx : Nat)
    (s : St) :
    countMultiDim (process_coord info multi idx s).2.trace =
      countMultiDim s.trace := by
  obtain ⟨e, t, hz, hm, sr, env⟩ := info
  cases hz <;> cases hm <;>
    simp only [process_coord, M.bind_apply, M.pure_apply, readF64M, emit,
      WkbInfo.endian_mk, WkbInfo.has_z_mk, WkbInfo.has_m_mk,
      Bool.false_eq_true, if_false, if_true]
  · cases h1 : readF64 e s.bytes with
    | error er => rfl
    | ok p1 =>
      obtain ⟨x, b1⟩ := p1
      simp only []
      cases h2 : readF64 e b1 with
      | error er => rfl
      | ok p2 =>
        obtain ⟨y, b2⟩ := p2
        cases multi <;>
          simp [emit, countMultiDim_append, countMultiDim]
  · cases h1 : readF64 e s.bytes with
    | error er => rfl
    | ok p1 =>
      obtain ⟨x, b1⟩ := p1
      simp only []
      cases h2 : readF64 e b1 with
      | error er => rfl
      | ok p2 =>
        obtain ⟨y, b2⟩ := p2
        simp only []
        cases h3 : readF64 e b2 with
        | error er => rfl
        | ok p3 =>
          obtain ⟨mv, b3⟩ := p3
          cases multi <;>
            simp [emit, countMultiDim_append, countMultiDim]
  · cases h1 : readF64 e s.bytes with
    | error er => rfl
    | ok p1 =>
      obtain ⟨x, b1⟩ := p1
      simp only []
      cases h2 : readF64 e b1 with
      | error er => rfl
      | ok p2 =>
        obtain ⟨y, b2⟩ := p2
        simp only []
        cases h3 : readF64 e b2 with
        | error er => rfl
        | ok p3 =>
          obtain ⟨zv, b3⟩ := p3
          cases multi <;>
            simp [emit, countMultiDim_append, countMultiDim]
  · cases h1 : readF64 e s.bytes with
    | error er => rfl
    | ok p1 =>
      obtain ⟨x, b1⟩ := p1
      simp only []
      cases h2 : readF64 e b1 with
      | error er => rfl
      | ok p2 =>
        obtain ⟨y, b2⟩ := p2
        simp only []
        cases h3 : readF64 e b2 with
        | error er => rfl
        | ok p3 =>
          obtain ⟨zv, b3⟩ := p3
          simp only []
          cases h4 : readF64 e b3 with
          | error er => rfl
          | ok p4 =>
            obtain ⟨mv, b4⟩ := p4
            cases multi <;>
              simp [emit, countMultiDim_append, countMultiDim]

theorem coordLoop_cnt (info : WkbInfo) (multi : Bool) :
    ∀ (n i : Nat) (s : St),
      countMultiDim (coordLoop info multi n i s).2.trace =
        countMultiDim s.trace := by
  intro n
  induction n with
  | zero => intro i s; rfl
  | succ k ih =>
    intro i s
    simp only [coordLoop, M.bind_apply]
    cases hx : process_coord info multi i s with
    | mk r s1 =>
      have hc := process_coord_cnt info multi i s
      rw [hx] at hc
      cases r with
      | ok a =>
        simp only []
        rw [ih (i + 1) s1]
        exact hc
      | error er => exact hc

theorem readU32M_trace (e : Endian) (s : St) :
    (readU32M e s).2.trace = s.trace := by
  unfold readU32M
  cases h : readU32 e s.bytes with
  | error er => rfl
  | ok pr =>
    obtain ⟨v, b⟩ := pr
    rfl

theorem process_linestring_one_query :
    ∀ (info : WkbInfo) (tagged : Bool) (idx : Nat) (p : Oracle) (s s' : St),
      process_linestring info tagged idx p s = (.ok (), s') →
      countMultiDim s'.trace = countMultiDim s.trace + 1 := by
  intro info tagged idx p s s' h
  simp only [process_linestring, M.bind_apply] at h
  cases hx : readU32M info.endian s with
  | mk r1 s1 =>
    rw [hx] at h
    cases r1 with
    | error er => exact absurd h (by simp)
    | ok len =>
      simp only [] at h
      simp only [emit, askMultiDim] at h
      split at h
      next a s2 hcl =>
        injection h with h2 h3
        have hcnt := coordLoop_cnt info (p s1.nq) len 0
          { bytes := s1.bytes, nq := s1.nq + 1,
            trace := s1.trace ++ [PCall.linestringBegin tagged len idx] ++
              [PCall.multiDim (p s1.nq)] }
        rw [hcl] at hcnt
        have htr : s1.trace = s.trace := by
          have hq := readU32M_trace info.endian s
          rw [hx] at hq
          exact hq
        rw [← h3]
        simp only []
        rw [countMultiDim_append, hcnt, countMultiDim_append,
          countMultiDim_append, htr]
        simp [countMultiDim]
      next e s2 hcl => exact absurd h (by simp)

theorem liftHdr_trace (rh : HdrFn) (s : St) :
    (liftHdr rh s).2.trace = s.trace := by
  unfold liftHdr
  cases h : rh s.bytes with
  | error er => rfl
  | ok pr =>
    obtain ⟨info, b⟩ := pr
    rfl

theorem mpLoop_cnt (rh : HdrFn) (multi : Bool) :
    ∀ (n i : Nat) (s : St),
      countMultiDim (mpLoop rh multi n i s).2.trace =
        countMultiDim s.trace := by
  intro n
  induction n with
  | zero => intro i s; rfl
  | succ k ih =>
    intro i s
    simp only [mpLoop, M.bind_apply]
    cases hx : liftHdr rh s with
    | mk r1 s1 =>
      have hl := liftHdr_trace rh s
      rw [hx] at hl
      cases r1 with
      | error er => exact congrArg countMultiDim hl
      | ok info =>
        simp only []
        cases hc : process_coord info multi i s1 with
        | mk r2 s2 =>
          have hcc := process_coord_cnt info multi i s1
          rw [hc] at hcc
          cases r2 with
          | error er => exact hcc.trans (congrArg countMultiDim hl)
          | ok a =>
            simp only []
            rw [ih (i + 1) s2]
            exact hcc.trans (congrArg countMultiDim hl)

theorem process_circularstring_one_query :
    ∀ (info : WkbInfo) (idx : Nat) (p : Oracle) (s s' : St),
      process_circularstring info idx p s = (.ok (), s') →
      countMultiDim s'.trace = countMultiDim s.trace + 1 := by
  intro info idx p s s' h
  simp only [process_circularstring, M.bind_apply] at h
  cases hx : readU32M info.endian s with
  | mk r1 s1 =>
    rw [hx] at h
    cases r1 with
    | error er => exact absurd h (by simp)
    | ok len =>
      simp only [] at h
      simp only [emit, askMultiDim] at h
      split at h
      next a s2 hcl =>
        injection h with h2 h3
        have hcnt := coordLoop_cnt info (p s1.nq) len 0
          { bytes := s1.bytes, nq := s1.nq + 1,
            trace := s1.trace ++ [PCall.circularstringBegin len idx] ++
              [PCall.multiDim (p s1.nq)] }
        rw [hcl] at hcnt
        have htr : s1.trace = s.trace := by
          have hq := readU32M_trace info.endian s
          rw [hx] at hq
          exact hq
        rw [← h3]
        simp only []
        rw [countMultiDim_append, hcnt, countMultiDim_append,
          countMultiDim_append, htr]
        simp [countMultiDim]
      next e s2 hcl => exact absurd h (by simp)

theorem process_point_one_query :
    ∀ (fuel : Nat) (rh : HdrFn) (idx : Nat) (p : Oracle) (e : Endian)
      (z m : Bool) (sr : Option Int) (env : List Nat) (s s' : St),
      process_wkb_geom_n (fuel + 1) ⟨e, .Point, z, m, sr, env⟩ rh idx p s =
        (.ok (), s') →
      countMultiDim s'.trace = countMultiDim s.trace + 1 := by
  intro fuel rh idx p e z m sr env s s' h
  simp only [process_wkb_geom_n, M.bind_apply, emit, askMultiDim] at h
  split at h
  next a s2 hcl =>
    injection h with h2 h3
    have hcc := process_coord_cnt ⟨e, .Point, z, m, sr, env⟩ (p s.nq) 0
      { bytes := s.bytes, nq := s.nq + 1,
        trace := s.trace ++ [PCall.pointBegin idx] ++
          [PCall.multiDim (p s.nq)] }
    rw [hcl] at hcc
    rw [← h3]
    simp only []
    rw [countMultiDim_append, hcc, countMultiDim_append, countMultiDim_append]
    simp [countMultiDim]
  next e2 s2 hcl => exact absurd h (by simp)

theorem process_multipoint_one_query :
    ∀ (fuel : Nat) (rh : HdrFn) (idx : Nat) (p : Oracle) (e : Endian)
      (z m : Bool) (sr : Option Int) (env : List Nat) (s s' : St),
      process_wkb_geom_n (fuel + 1) ⟨e, .MultiPoint, z, m, sr, env⟩ rh idx p
          s = (.ok (), s') →
      countMultiDim s'.trace = countMultiDim s.trace + 1 := by
  intro fuel rh idx p e z m sr env s s' h
  simp only [process_wkb_geom_n, M.bind_apply] at h
  cases hx : readU32M e s with
  | mk r1 s1 =>
    rw [hx] at h
    cases r1 with
    | error er => exact absurd h (by simp)
    | ok n_pts =>
      simp only [] at h
      simp only [emit, askMultiDim] at h
      split at h
      next a s2 hcl =>
        injection h with h2 h3
        have hcnt := mpLoop_cnt rh (p s1.nq) n_pts 0
          { bytes := s1.bytes, nq := s1.nq + 1,
            trace := s1.trace ++ [PCall.multipointBegin n_pts idx] ++
              [PCall.multiDim (p s1.nq)] }
        rw [hcl] at hcnt
        have htr : s1.trace = s.trace := by
          have hq := readU32M_trace e s
          rw [hx] at hq
          exact hq
        rw [← h3]
        simp only []
        rw [countMultiDim_append, hcnt, countMultiDim_append,
          countMultiDim_append, htr]
        simp [countMultiDim]
      next e2 s2 hcl => exact absurd h (by simp)

/-- C2 counterexample: a plain little-endian 2-D LineString with two
points decodes successfully with exactly one `multi_dim()` query but two
coordinate emissions — the query is not made once per emitted
coordinate. -/
theorem c2_not_once_per_coordinate :
    (process_wkb_geom ([1, 2, 0, 0, 0, 2, 0, 0, 0] ++ List.replicate 32 0)
        (fun _ => false)).1 = .ok () ∧
    countMultiDim
      (process_wkb_geom ([1, 2, 0, 0, 0, 2, 0, 0, 0] ++ List.replicate 32 0)
        (fun _ => false)).2.trace = 1 ∧
    countCoordEmit
      (process_wkb_geom ([1, 2, 0, 0, 0, 2, 0, 0, 0] ++ List.replicate 32 0)
        (fun _ => false)).2.trace = 2 ∧
    countMultiDim
        (process_wkb_geom ([1, 2, 0, 0, 0, 2, 0, 0, 0] ++ List.replicate 32 0)
          (fun _ => false)).2.trace ≠
      countCoordEmit
        (process_wkb_geom ([1, 2, 0, 0, 0, 2, 0, 0, 0] ++ List.replicate 32 0)
          (fun _ => false)).2.trace := by decide

/-- C2 (amended): the wants-multi-dimensional choice is queried once per
coordinate *sequence*, not once per emitted coordinate: exactly one
`multi_dim()` query per decoded Point, per LineString coordinate list, per
CircularString coordinate list, and one query governing *all* members of a
MultiPoint, however many coordinates each sequence holds.  And the choice
never changes the byte-level decode: `process_coord` consumes the same
bytes whichever answer is given, with z and/or m consumed exactly when the
governing header's `has_z` / `has_m` flags are set; only the emission to
the processor (`coordinate` vs `xy`) differs. -/
theorem multi_dim_query_per_sequence :
    (∀ (info : WkbInfo) (idx : Nat) (s : St),
      (process_coord info true idx s).2.bytes =
        (process_coord info false idx s).2.bytes ∧
      ((process_coord info true idx s).1 = .ok () ↔
        (process_coord info false idx s).1 = .ok ()) ∧
      ((process_coord info true idx s).1 = .ok () →
        (process_coord info true idx s).2.bytes =
          s.bytes.drop (16 + (if info.has_z then 8 else 0) +
            (if info.has_m then 8 else 0)) ∧
        ∃ x y z m,
          (process_coord info true idx s).2.trace =
            s.trace ++ [.coordinate x y z m none none idx] ∧
          (process_coord info false idx s).2.trace =
            s.trace ++ [.xy x y idx] ∧
          z.isSome = info.has_z ∧ m.isSome = info.has_m)) ∧
    (∀ (info : WkbInfo) (tagged : Bool) (idx : Nat) (p : Oracle) (s s' : St),
      process_linestring info tagged idx p s = (.ok (), s') →
      countMultiDim s'.trace = countMultiDim s.trace + 1) ∧
    (∀ (info : WkbInfo) (idx : Nat) (p : Oracle) (s s' : St),
      process_circularstring info idx p s = (.ok (), s') →
      countMultiDim s'.trace = countMultiDim s.trace + 1) ∧
    (∀ (fuel : Nat) (rh : HdrFn) (idx : Nat) (p : Oracle) (e : Endian)
      (z m : Bool) (sr : Option Int) (env : List Nat) (s s' : St),
      process_wkb_geom_n (fuel + 1) ⟨e, .Point, z, m, sr, env⟩ rh idx p s =
        (.ok (), s') →
      countMultiDim s'.trace = countMultiDim s.trace + 1) ∧
    (∀ (fuel : Nat) (rh : HdrFn) (idx : Nat) (p : Oracle) (e : Endian)
      (z m : Bool) (sr : Option Int) (env : List Nat) (s s' : St),
      process_wkb_geom_n (fuel + 1) ⟨e, .MultiPoint, z, m, sr, env⟩ rh idx p
          s = (.ok (), s') →
      countMultiDim s'.trace = countMultiDim s.trace + 1) :=
  ⟨process_coord_multi_indep, process_linestring_one_query,
   process_circularstring_one_query, process_point_one_query,
   process_multipoint_one_query⟩

/-- Witness for C2 (amended): a concrete two-member 2-D MultiPoint — one
`multi_dim()` query governs both members. -/
theorem multi_dim_query_per_sequence_witness :
    countMultiDim
        ((⟨[], 1,
          [.multipointBegin 2 0, .multiDim false,
           .xy 0 0 0, .xy 0 0 1, .multipointEnd 0]⟩ : St)).trace =
      countMultiDim
        (initSt ([2, 0, 0, 0, 1, 1, 0, 0, 0] ++ List.replicate 16 0 ++
          [1, 1, 0, 0, 0] ++ List.replicate 16 0)).trace + 1 :=
  multi_dim_query_per_sequence.2.2.2.2 0 read_wkb_header 0 (fun _ => false)
    .le false false none []
    (initSt ([2, 0, 0, 0, 1, 1, 0, 0, 0] ++ List.replicate 16 0 ++
      [1, 1, 0, 0, 0] ++ List.replicate 16 0))
    ⟨[], 1,
      [.multipointBegin 2 0, .multiDim false,
       .xy 0 0 0, .xy 0 0 1, .multipointEnd 0]⟩ (by decide)
